import Mathlib

/-!
Verification of the constexpr command-line dispatch engine of cliapp-rs.

The data model (FlagValue, ParameterValue, Flag, Parameter, SubCommand)
and the dispatch algorithm are embedded from `src/constexpr/mod.rs`
(`Executable::execute`, lines 270-339) and `src/constexpr/flags.rs` /
`src/constexpr/parameters.rs`.  The mutable cells referenced by flags and
parameters are modelled as a state record `Stores` indexed by cell ids;
strings are modelled as lists of characters (byte-for-byte comparisons in
the source become list equality).
-/

namespace Cliapp

/-- A command-line token (one element of the argument sequence), modelled as
its character list, matching the byte-for-byte string handling of the source. -/
abbrev Tok := List Char

/-- The mutable boolean cell behind a flag (`FlagValue` in `flags.rs` /
`mod.rs`): a `Cell<bool>` modelled by its current contents. -/
abbrev FlagValue : Type := Bool

/-- `FlagValue::new`: the cell starts at `false`. -/
def FlagValue.new : FlagValue := false

/-- `FlagValue::value`: a pure read of the cell. -/
def FlagValue.value (v : FlagValue) : Bool := v

/-- `FlagValue::mark`: sets the cell to `true` (regardless of its old value). -/
def FlagValue.mark (_ : FlagValue) : FlagValue := true

/-- The mutable optional-string cell behind a parameter (`ParameterValue`):
an `UnsafeCell<Option<String>>` modelled by its current contents. -/
abbrev ParameterValue : Type := Option Tok

/-- `ParameterValue::new`: the cell starts unset (`None`). -/
def ParameterValue.new : ParameterValue := none

/-- `ParameterValue::value`: a pure read of the cell. -/
def ParameterValue.value (v : ParameterValue) : Option Tok := v

/-- `ParameterValue::set_value`: replaces the contents with `Some value`. -/
def ParameterValue.set_value (_ : ParameterValue) (value : Tok) : ParameterValue :=
  some value

/-- The global state of all flag and parameter cells.  In the source each
`Flag`/`Parameter` holds a reference to its cell; here references are cell
ids (`Nat`) indexing into this record. -/
structure Stores where
  flagValues : Nat → FlagValue
  paramValues : Nat → ParameterValue

/-- The state in which every flag cell is `FlagValue::new` and every
parameter cell is `ParameterValue::new` (all cells freshly constructed). -/
def Stores.init : Stores :=
  { flagValues := fun _ => FlagValue.new
    paramValues := fun _ => ParameterValue.new }

/-- A command-line boolean flag (`Flag` in `mod.rs`): short name, long name,
description, and a reference (cell id) to its `FlagValue`. -/
structure Flag where
  short_name : Tok
  long_name : Tok
  description : Tok
  flag : Nat

/-- `Flag::mark`: marks the referenced `FlagValue` cell. -/
def Flag.mark (f : Flag) (st : Stores) : Stores :=
  { st with
    flagValues := fun i =>
      if i = f.flag then FlagValue.mark (st.flagValues i) else st.flagValues i }

/-- A command-line string parameter (`Parameter` in `mod.rs`): short name,
long name, description, and a reference (cell id) to its `ParameterValue`. -/
structure Parameter where
  short_name : Tok
  long_name : Tok
  description : Tok
  value : Nat

/-- `Parameter::set_value`: binds `value` into the referenced
`ParameterValue` cell. -/
def Parameter.set_value (p : Parameter) (value : Tok) (st : Stores) : Stores :=
  { st with
    paramValues := fun i =>
      if i = p.value then ParameterValue.set_value (st.paramValues i) value
      else st.paramValues i }

/-- The callback type (`type Command<'a, R> = &'a (dyn Fn() -> R + Sync)`):
a zero-argument operation returning `R`. -/
def Command (R : Type) : Type := Unit → R

/-- A command node (`SubCommand` in `mod.rs`; `Application` has the same
executable shape): long name, description, declared flags, declared
parameters, child subcommands, and an optional terminal callback. -/
inductive SubCommand (R : Type) : Type where
  | mk (long_name : Tok) (description : Tok)
      (flags : List Flag) (params : List Parameter)
      (subcommands : List (SubCommand R))
      (command : Option (Command R))

/-- `SubCommand::long_name`. -/
def SubCommand.long_name {R : Type} : SubCommand R → Tok
  | .mk n _ _ _ _ _ => n

/-- `SubCommand::description`. -/
def SubCommand.description {R : Type} : SubCommand R → Tok
  | .mk _ d _ _ _ _ => d

/-- `Executable::flags`. -/
def SubCommand.flags {R : Type} : SubCommand R → List Flag
  | .mk _ _ f _ _ _ => f

/-- `Executable::parameters`. -/
def SubCommand.params {R : Type} : SubCommand R → List Parameter
  | .mk _ _ _ p _ _ => p

/-- `Executable::subcommands`. -/
def SubCommand.subcommands {R : Type} : SubCommand R → List (SubCommand R)
  | .mk _ _ _ _ s _ => s

/-- `Executable::command`: the optional terminal callback. -/
def SubCommand.command {R : Type} : SubCommand R → Option (Command R)
  | .mk _ _ _ _ _ c => c

/-- Modelled from the spec: the error taxonomy of `CommandLineError`
(spec section 7).  The Result-based snapshot of the crate declares
`CommandLineError` (it is referenced by `Application::execute` in
`application.rs`) but its definition is not among the sources; the variants
and their trigger conditions follow the spec, and each carries the original
offending token as the source's panic messages do. -/
inductive CommandLineError : Type where
  | UnknownArgument (token : Tok)
  | UnexpectedParameter (token : Tok)
  | UnknownCommand (token : Tok)
  | ExpectedValue (token : Tok)
  | ExpectedSubcommand
deriving DecidableEq

/-- Splits a token remainder at the first `=` character into name and value,
mirroring `arg_slice.find('=')` followed by slicing `[0..pos]` and
`[pos + 1..]` in `Executable::execute`; `none` when the remainder contains
no `=`. -/
def splitFirstEq : Tok → Option (Tok × Tok)
  | [] => none
  | c :: rest =>
    if c = '=' then some ([], rest)
    else
      match splitFirstEq rest with
      | some (n, v) => some (c :: n, v)
      | none => none

/-- Modelled from the spec: the dispatch engine.  The Result-returning
`Executable::execute` called by `Application::execute` in `application.rs`
is not among the sources; its algorithm is embedded from the
`Executable::execute` of `mod.rs` (lines 270-339), which is identical
except that it panics where this one returns the typed `CommandLineError`
of spec section 7.  The function walks the token stream left to right:
`--name=value` binds a declared parameter by long name, `--name` marks a
declared flag by long name, `-n` marks a declared flag by short name or
else binds a declared parameter by short name using the next token as the
value, a bare token recurses into the matching child subcommand with the
remaining tokens, and end of input invokes the node's callback when
present.  It returns the final cell state together with the result. -/
def Executable.execute {R : Type} (node : SubCommand R) (st : Stores) :
    List Tok → Stores × Except CommandLineError R
  | [] =>
    match node.command with
    | some command => (st, .ok (command ()))
    | none => (st, .error .ExpectedSubcommand)
  | arg :: args =>
    if ['-', '-'].isPrefixOf arg then
      let arg_slice := arg.drop 2
      match splitFirstEq arg_slice with
      | some (param_name, param_value) =>
        match node.params.find? (fun param => param.long_name == param_name) with
        | some param => Executable.execute node (param.set_value param_value st) args
        | none => (st, .error (.UnexpectedParameter arg))
      | none =>
        match node.flags.find? (fun flag => flag.long_name == arg_slice) with
        | some flag => Executable.execute node (flag.mark st) args
        | none => (st, .error (.UnknownArgument arg))
    else if ['-'].isPrefixOf arg then
      let arg_slice := arg.drop 1
      match node.flags.find? (fun flag => flag.short_name == arg_slice) with
      | some flag => Executable.execute node (flag.mark st) args
      | none =>
        match node.params.find? (fun param => param.short_name == arg_slice) with
        | some param =>
          match args with
          | param_value :: args2 => Executable.execute node (param.set_value param_value st) args2
          | [] => (st, .error (.ExpectedValue arg))
        | none => (st, .error (.UnknownArgument arg))
    else
      match node.subcommands.find? (fun command => command.long_name == arg) with
      | some command => Executable.execute command st args
      | none => (st, .error (.UnknownCommand arg))

/-- The flag builder (`FlagBuilder` in `mod.rs` / `flags.rs`): optional
short name, long name, description, and cell reference, all initially
unset. -/
structure FlagBuilder where
  short_name : Option Tok
  long_name : Option Tok
  description : Option Tok
  flag : Option Nat

/-- `Flag::build`: a fresh builder with every field unset. -/
def Flag.build : FlagBuilder :=
  { short_name := none, long_name := none, description := none, flag := none }

/-- `FlagBuilder::with_short_name`. -/
def FlagBuilder.with_short_name (b : FlagBuilder) (short_name : Tok) : FlagBuilder :=
  { b with short_name := some short_name }

/-- `FlagBuilder::with_long_name`. -/
def FlagBuilder.with_long_name (b : FlagBuilder) (long_name : Tok) : FlagBuilder :=
  { b with long_name := some long_name }

/-- `FlagBuilder::with_description`. -/
def FlagBuilder.with_description (b : FlagBuilder) (description : Tok) : FlagBuilder :=
  { b with description := some description }

/-- `FlagBuilder::with_flag`. -/
def FlagBuilder.with_flag (b : FlagBuilder) (flag : Nat) : FlagBuilder :=
  { b with flag := some flag }

/-- `FlagBuilder::build` (`mod.rs` lines 117-142): unset names and
description default to the empty string; a missing cell reference and the
assertion that the short and long name are not both empty are
construction-time panics, modelled as `none`. -/
def FlagBuilder.build (b : FlagBuilder) : Option Flag :=
  match b.flag with
  | none => none
  | some cell =>
    let f : Flag :=
      { short_name := b.short_name.getD []
        long_name := b.long_name.getD []
        description := b.description.getD []
        flag := cell }
    if f.short_name = [] ∧ f.long_name = [] then none else some f

/-!
Concrete declarations used to instantiate the claims: the flag `f`/`flag`
(cell 0), the flag `g`/`gflag` (cell 1), the parameter `p`/`param`
(cell 0), and small trees over them with `Nat`-returning callbacks.
-/

/-- The flag declaration `-f` / `--flag`, referencing flag cell 0. -/
def fFlag : Flag :=
  { short_name := "f".data, long_name := "flag".data, description := [], flag := 0 }

/-- The flag declaration `-g` / `--gflag`, referencing flag cell 1. -/
def gFlag : Flag :=
  { short_name := "g".data, long_name := "gflag".data, description := [], flag := 1 }

/-- The parameter declaration `-p` / `--param`, referencing parameter cell 0. -/
def pParam : Parameter :=
  { short_name := "p".data, long_name := "param".data, description := [], value := 0 }

/-- A subcommand named `sub` declaring only the flag `g`, with a callback
returning 2. -/
def subNode : SubCommand Nat :=
  .mk "sub".data [] [gFlag] [] [] (some fun _ => 2)

/-- A root node declaring only the flag `f`, with the single child `sub`
and a callback returning 1. -/
def rootNode : SubCommand Nat :=
  .mk "app".data [] [fFlag] [] [subNode] (some fun _ => 1)

/-- A node declaring the single parameter `p`/`param`, with a callback
returning 7. -/
def paramNode : SubCommand Nat :=
  .mk "app".data [] [] [pParam] [] (some fun _ => 7)

/-- A node declaring the single flag `f`/`flag`, with a callback
returning 5. -/
def flagNode : SubCommand Nat :=
  .mk "app".data [] [fFlag] [] [] (some fun _ => 5)

/-- A node declaring the flag `f`/`flag` and the parameter `p`/`param`,
with a callback returning 3. -/
def mixedNode : SubCommand Nat :=
  .mk "app".data [] [fFlag] [pParam] [] (some fun _ => 3)

/-- A node with no callback whose only child is `sub`. -/
def subOnlyNode : SubCommand Nat :=
  .mk "app".data [] [] [] [subNode] none

/-- Holds when `r` is the return value of the callback of `node` or of some
descendant of `node`: the only values a successful dispatch can produce. -/
inductive IsCallbackResult {R : Type} : SubCommand R → R → Prop where
  | here {node : SubCommand R} {c : Command R} (h : node.command = some c) :
      IsCallbackResult node (c ())
  | child {node child : SubCommand R} {r : R} (hm : child ∈ node.subcommands)
      (h : IsCallbackResult child r) : IsCallbackResult node r

/-!
Helper lemmas: token-shape facts, single-step unfoldings of the engine,
and monotonicity of the cell state under a dispatch pass.
-/

lemma isPrefixOf_dd (s : Tok) : ['-', '-'].isPrefixOf ('-' :: '-' :: s) = true := by
  simp [List.isPrefixOf]

lemma isPrefixOf_d (s : Tok) : ['-'].isPrefixOf ('-' :: s) = true := by
  simp [List.isPrefixOf]

lemma isPrefixOf_dd_short (s : Tok) (hnd : s.head? ≠ some '-') :
    ['-', '-'].isPrefixOf ('-' :: s) = false := by
  cases s with
  | nil => rfl
  | cons c cs =>
    by_cases hc : c = '-'
    · subst hc; simp at hnd
    · simp [List.isPrefixOf]
      intro h2
      exact absurd h2.symm hc

lemma isPrefixOf_bare (arg : Tok) (h : arg.head? ≠ some '-') :
    ['-'].isPrefixOf arg = false ∧ ['-', '-'].isPrefixOf arg = false := by
  cases arg with
  | nil => exact ⟨rfl, rfl⟩
  | cons c cs =>
    by_cases hc : c = '-'
    · subst hc; simp at h
    · constructor <;> (simp [List.isPrefixOf]; intro h2; exact absurd h2.symm hc)

lemma splitFirstEq_append (n v : Tok) (h : '=' ∉ n) :
    splitFirstEq (n ++ '=' :: v) = some (n, v) := by
  induction n with
  | nil => simp [splitFirstEq]
  | cons c cs ih =>
    have hc : c ≠ '=' := by
      intro hcc
      exact h (by rw [hcc]; exact List.mem_cons_self _ _)
    have hcs : '=' ∉ cs := fun hm => h (List.mem_cons_of_mem c hm)
    simp [splitFirstEq, hc, ih hcs]

lemma execute_long_param_bind {R : Type} (node : SubCommand R) (st : Stores)
    (slice n v : Tok) (rest : List Tok) (p : Parameter)
    (h1 : splitFirstEq slice = some (n, v))
    (h2 : node.params.find? (fun param => param.long_name == n) = some p) :
    Executable.execute node st (('-' :: '-' :: slice) :: rest) =
      Executable.execute node (p.set_value v st) rest := by
  simp [Executable.execute, isPrefixOf_dd, h1, h2]

lemma execute_long_flag_mark {R : Type} (node : SubCommand R) (st : Stores)
    (slice : Tok) (rest : List Tok) (f : Flag)
    (h1 : splitFirstEq slice = none)
    (h2 : node.flags.find? (fun flag => flag.long_name == slice) = some f) :
    Executable.execute node st (('-' :: '-' :: slice) :: rest) =
      Executable.execute node (f.mark st) rest := by
  simp [Executable.execute, isPrefixOf_dd, h1, h2]

lemma execute_long_flag_missing {R : Type} (node : SubCommand R) (st : Stores)
    (slice : Tok) (rest : List Tok)
    (h1 : splitFirstEq slice = none)
    (h2 : node.flags.find? (fun flag => flag.long_name == slice) = none) :
    Executable.execute node st (('-' :: '-' :: slice) :: rest) =
      (st, .error (.UnknownArgument ('-' :: '-' :: slice))) := by
  simp [Executable.execute, isPrefixOf_dd, h1, h2]

lemma execute_short_flag_mark {R : Type} (node : SubCommand R) (st : Stores)
    (s : Tok) (rest : List Tok) (f : Flag)
    (hnd : s.head? ≠ some '-')
    (h1 : node.flags.find? (fun flag => flag.short_name == s) = some f) :
    Executable.execute node st (('-' :: s) :: rest) =
      Executable.execute node (f.mark st) rest := by
  simp [Executable.execute, isPrefixOf_dd_short s hnd, isPrefixOf_d, h1]

lemma execute_short_param_bind {R : Type} (node : SubCommand R) (st : Stores)
    (s v : Tok) (rest : List Tok) (p : Parameter)
    (hnd : s.head? ≠ some '-')
    (h1 : node.flags.find? (fun flag => flag.short_name == s) = none)
    (h2 : node.params.find? (fun param => param.short_name == s) = some p) :
    Executable.execute node st (('-' :: s) :: v :: rest) =
      Executable.execute node (p.set_value v st) rest := by
  simp [Executable.execute, isPrefixOf_dd_short s hnd, isPrefixOf_d, h1, h2]

lemma execute_short_param_exhausted {R : Type} (node : SubCommand R) (st : Stores)
    (s : Tok) (p : Parameter)
    (hnd : s.head? ≠ some '-')
    (h1 : node.flags.find? (fun flag => flag.short_name == s) = none)
    (h2 : node.params.find? (fun param => param.short_name == s) = some p) :
    Executable.execute node st [('-' :: s)] =
      (st, .error (.ExpectedValue ('-' :: s))) := by
  simp [Executable.execute, isPrefixOf_dd_short s hnd, isPrefixOf_d, h1, h2]

lemma execute_bare_sub {R : Type} (node : SubCommand R) (st : Stores)
    (arg : Tok) (rest : List Tok) (child : SubCommand R)
    (hb : arg.head? ≠ some '-')
    (h1 : node.subcommands.find? (fun command => command.long_name == arg) = some child) :
    Executable.execute node st (arg :: rest) = Executable.execute child st rest := by
  obtain ⟨e1, e2⟩ := isPrefixOf_bare arg hb
  simp [Executable.execute, e1, e2, h1]

lemma mark_flagValues_true (f : Flag) (st : Stores) (i : Nat)
    (h : st.flagValues i = true) : (f.mark st).flagValues i = true := by
  simp [Flag.mark, FlagValue.mark]
  exact Or.inr h

lemma set_value_paramValues_isSome (p : Parameter) (v : Tok) (st : Stores) (i : Nat)
    (h : (st.paramValues i).isSome = true) :
    ((p.set_value v st).paramValues i).isSome = true := by
  by_cases hi : i = p.value <;>
    simp [Parameter.set_value, ParameterValue.set_value, hi, h]

lemma execute_flagValues_mono {R : Type} (node : SubCommand R) (st : Stores)
    (args : List Tok) (i : Nat) :
    st.flagValues i = true → ((Executable.execute node st args).1).flagValues i = true := by
  induction node, st, args using Executable.execute.induct with
  | case1 node st command hc => intro h; simpa [Executable.execute, hc] using h
  | case2 node st hc => intro h; simpa [Executable.execute, hc] using h
  | case3 node st arg args hpre arg_slice n v hsplit param hfind ih =>
      intro h
      simp only [show arg_slice = List.drop 2 arg from rfl] at hsplit
      simp [Executable.execute, hpre, hsplit, hfind]
      exact ih h
  | case4 node st arg args hpre arg_slice n v hsplit hfind =>
      intro h
      simp only [show arg_slice = List.drop 2 arg from rfl] at hsplit
      simpa [Executable.execute, hpre, hsplit, hfind] using h
  | case5 node st arg args hpre arg_slice hsplit flag hfind ih =>
      intro h
      simp only [show arg_slice = List.drop 2 arg from rfl] at hsplit hfind
      simp [Executable.execute, hpre, hsplit, hfind]
      exact ih (mark_flagValues_true flag st i h)
  | case6 node st arg args hpre arg_slice hsplit hfind =>
      intro h
      simp only [show arg_slice = List.drop 2 arg from rfl] at hsplit hfind
      simpa [Executable.execute, hpre, hsplit, hfind] using h
  | case7 node st arg args hpre2 hpre arg_slice flag hfind ih =>
      intro h
      simp only [show arg_slice = List.drop 1 arg from rfl, List.drop_one] at hfind
      simp [Executable.execute, hpre2, hpre, hfind]
      exact ih (mark_flagValues_true flag st i h)
  | case8 node st arg hpre2 hpre arg_slice hfindf param hfindp param_value args2 ih =>
      intro h
      simp only [show arg_slice = List.drop 1 arg from rfl, List.drop_one] at hfindf hfindp
      simp [Executable.execute, hpre2, hpre, hfindf, hfindp]
      exact ih h
  | case9 node st arg hpre2 hpre arg_slice hfindf param hfindp =>
      intro h
      simp only [show arg_slice = List.drop 1 arg from rfl, List.drop_one] at hfindf hfindp
      simpa [Executable.execute, hpre2, hpre, hfindf, hfindp] using h
  | case10 node st arg args hpre2 hpre arg_slice hfindf hfindp =>
      intro h
      simp only [show arg_slice = List.drop 1 arg from rfl, List.drop_one] at hfindf hfindp
      simpa [Executable.execute, hpre2, hpre, hfindf, hfindp] using h
  | case11 node st arg args hpre2 hpre command hfind ih =>
      intro h
      simp [Executable.execute, hpre2, hpre, hfind]
      exact ih h
  | case12 node st arg args hpre2 hpre hfind =>
      intro h
      simpa [Executable.execute, hpre2, hpre, hfind] using h

lemma execute_paramValues_isSome_mono {R : Type} (node : SubCommand R) (st : Stores)
    (args : List Tok) (i : Nat) :
    (st.paramValues i).isSome = true →
      (((Executable.execute node st args).1).paramValues i).isSome = true := by
  induction node, st, args using Executable.execute.induct with
  | case1 node st command hc => intro h; simpa [Executable.execute, hc] using h
  | case2 node st hc => intro h; simpa [Executable.execute, hc] using h
  | case3 node st arg args hpre arg_slice n v hsplit param hfind ih =>
      intro h
      simp only [show arg_slice = List.drop 2 arg from rfl] at hsplit
      simp [Executable.execute, hpre, hsplit, hfind]
      exact ih (set_value_paramValues_isSome param v st i h)
  | case4 node st arg args hpre arg_slice n v hsplit hfind =>
      intro h
      simp only [show arg_slice = List.drop 2 arg from rfl] at hsplit
      simpa [Executable.execute, hpre, hsplit, hfind] using h
  | case5 node st arg args hpre arg_slice hsplit flag hfind ih =>
      intro h
      simp only [show arg_slice = List.drop 2 arg from rfl] at hsplit hfind
      simp [Executable.execute, hpre, hsplit, hfind]
      exact ih h
  | case6 node st arg args hpre arg_slice hsplit hfind =>
      intro h
      simp only [show arg_slice = List.drop 2 arg from rfl] at hsplit hfind
      simpa [Executable.execute, hpre, hsplit, hfind] using h
  | case7 node st arg args hpre2 hpre arg_slice flag hfind ih =>
      intro h
      simp only [show arg_slice = List.drop 1 arg from rfl, List.drop_one] at hfind
      simp [Executable.execute, hpre2, hpre, hfind]
      exact ih h
  | case8 node st arg hpre2 hpre arg_slice hfindf param hfindp param_value args2 ih =>
      intro h
      simp only [show arg_slice = List.drop 1 arg from rfl, List.drop_one] at hfindf hfindp
      simp [Executable.execute, hpre2, hpre, hfindf, hfindp]
      exact ih (set_value_paramValues_isSome param param_value st i h)
  | case9 node st arg hpre2 hpre arg_slice hfindf param hfindp =>
      intro h
      simp only [show arg_slice = List.drop 1 arg from rfl, List.drop_one] at hfindf hfindp
      simpa [Executable.execute, hpre2, hpre, hfindf, hfindp] using h
  | case10 node st arg args hpre2 hpre arg_slice hfindf hfindp =>
      intro h
      simp only [show arg_slice = List.drop 1 arg from rfl, List.drop_one] at hfindf hfindp
      simpa [Executable.execute, hpre2, hpre, hfindf, hfindp] using h
  | case11 node st arg args hpre2 hpre command hfind ih =>
      intro h
      simp [Executable.execute, hpre2, hpre, hfind]
      exact ih h
  | case12 node st arg args hpre2 hpre hfind =>
      intro h
      simpa [Executable.execute, hpre2, hpre, hfind] using h

lemma execute_ok_isCallbackResult {R : Type} (node : SubCommand R) (st : Stores)
    (args : List Tok) :
    ∀ r, (Executable.execute node st args).2 = Except.ok r → IsCallbackResult node r := by
  induction node, st, args using Executable.execute.induct with
  | case1 node st command hc =>
      intro r hr
      simp [Executable.execute, hc] at hr
      exact hr ▸ IsCallbackResult.here hc
  | case2 node st hc =>
      intro r hr
      simp [Executable.execute, hc] at hr
  | case3 node st arg args hpre arg_slice n v hsplit param hfind ih =>
      intro r hr
      simp only [show arg_slice = List.drop 2 arg from rfl] at hsplit
      simp [Executable.execute, hpre, hsplit, hfind] at hr
      exact ih r hr
  | case4 node st arg args hpre arg_slice n v hsplit hfind =>
      intro r hr
      simp only [show arg_slice = List.drop 2 arg from rfl] at hsplit
      simp [Executable.execute, hpre, hsplit, hfind] at hr
  | case5 node st arg args hpre arg_slice hsplit flag hfind ih =>
      intro r hr
      simp only [show arg_slice = List.drop 2 arg from rfl] at hsplit hfind
      simp [Executable.execute, hpre, hsplit, hfind] at hr
      exact ih r hr
  | case6 node st arg args hpre arg_slice hsplit hfind =>
      intro r hr
      simp only [show arg_slice = List.drop 2 arg from rfl] at hsplit hfind
      simp [Executable.execute, hpre, hsplit, hfind] at hr
  | case7 node st arg args hpre2 hpre arg_slice flag hfind ih =>
      intro r hr
      simp only [show arg_slice = List.drop 1 arg from rfl, List.drop_one] at hfind
      simp [Executable.execute, hpre2, hpre, hfind] at hr
      exact ih r hr
  | case8 node st arg hpre2 hpre arg_slice hfindf param hfindp param_value args2 ih =>
      intro r hr
      simp only [show arg_slice = List.drop 1 arg from rfl, List.drop_one] at hfindf hfindp
      simp [Executable.execute, hpre2, hpre, hfindf, hfindp] at hr
      exact ih r hr
  | case9 node st arg hpre2 hpre arg_slice hfindf param hfindp =>
      intro r hr
      simp only [show arg_slice = List.drop 1 arg from rfl, List.drop_one] at hfindf hfindp
      simp [Executable.execute, hpre2, hpre, hfindf, hfindp] at hr
  | case10 node st arg args hpre2 hpre arg_slice hfindf hfindp =>
      intro r hr
      simp only [show arg_slice = List.drop 1 arg from rfl, List.drop_one] at hfindf hfindp
      simp [Executable.execute, hpre2, hpre, hfindf, hfindp] at hr
  | case11 node st arg args hpre2 hpre command hfind ih =>
      intro r hr
      simp [Executable.execute, hpre2, hpre, hfind] at hr
      exact IsCallbackResult.child (List.mem_of_find?_eq_some hfind) (ih r hr)
  | case12 node st arg args hpre2 hpre hfind =>
      intro r hr
      simp [Executable.execute, hpre2, hpre, hfind] at hr

lemma mark_flagValues_self (f : Flag) (st : Stores) :
    (f.mark st).flagValues f.flag = true := by
  simp [Flag.mark, FlagValue.mark]

/-- A flag referencing cell 2 built with only a short name (`-q`). -/
def shortOnlyFlag : Flag :=
  { short_name := "q".data, long_name := [], description := [], flag := 2 }

/-- A node declaring only `shortOnlyFlag`, with a callback returning 9. -/
def ddNode : SubCommand Nat :=
  .mk "app".data [] [shortOnlyFlag] [] [] (some fun _ => 9)

/-!
The claims.
-/

/-- C1: for every command tree and every token stream, a dispatch pass
returns a typed result to the caller: success carrying the return value of
a callback of the tree, or a typed `CommandLineError`; the engine is a
total function into this result type, so no parse error terminates or
aborts it. -/
theorem C1_dispatch_returns_typed_result (R : Type) (node : SubCommand R)
    (st : Stores) (args : List Tok) :
    (∃ r, (Executable.execute node st args).2 = Except.ok r ∧ IsCallbackResult node r) ∨
    (∃ e, (Executable.execute node st args).2 = Except.error e) := by
  cases hres : (Executable.execute node st args).2 with
  | ok r => exact Or.inl ⟨r, rfl, execute_ok_isCallbackResult node st args r hres⟩
  | error e => exact Or.inr ⟨e, rfl⟩

/-- C2: a bare token equal to a child subcommand's long name transfers
exactly the remaining unconsumed tokens to that child, and control never
returns to the parent's declarations: a flag declared only at the root
fails the dispatch when it appears after the subcommand token, and a flag
declared only at the child fails the dispatch when it appears before it. -/
theorem C2_subcommand_transfers_rest :
    (∀ (R : Type) (node : SubCommand R) (st : Stores) (arg : Tok)
        (rest : List Tok) (child : SubCommand R),
        arg.head? ≠ some '-' →
        node.subcommands.find? (fun command => command.long_name == arg) = some child →
        Executable.execute node st (arg :: rest) = Executable.execute child st rest) ∧
    (Executable.execute rootNode Stores.init ["sub".data, "-f".data]).2 =
      Except.error (.UnknownArgument "-f".data) ∧
    (Executable.execute rootNode Stores.init ["-g".data, "sub".data]).2 =
      Except.error (.UnknownArgument "-g".data) := by
  refine ⟨?_, rfl, rfl⟩
  intro R node st arg rest child hb hf
  exact execute_bare_sub node st arg rest child hb hf

/-- C2 witness: dispatching `["sub", "-f"]` at the sample root hands
exactly `["-f"]` to the child `sub`. -/
theorem C2_subcommand_transfers_rest_witness :
    Executable.execute rootNode Stores.init ["sub".data, "-f".data] =
      Executable.execute subNode Stores.init ["-f".data] :=
  C2_subcommand_transfers_rest.1 Nat rootNode Stores.init "sub".data ["-f".data]
    subNode (by decide) rfl

/-- C3: dispatching an empty token stream at a node invokes that node's
callback with no arguments and returns its result as success when the
callback is present, and fails with `ExpectedSubcommand` when the node has
no callback. -/
theorem C3_empty_stream (R : Type) (node : SubCommand R) (st : Stores) :
    (∀ c, node.command = some c →
        Executable.execute node st [] = (st, Except.ok (c ()))) ∧
    (node.command = none →
        Executable.execute node st [] = (st, Except.error .ExpectedSubcommand)) := by
  constructor
  · intro c hc
    simp [Executable.execute, hc]
  · intro hc
    simp [Executable.execute, hc]

/-- C3 witness: the node with callback returns `ok 7` on no tokens; the
callback-free node fails with `ExpectedSubcommand`. -/
theorem C3_empty_stream_witness :
    Executable.execute paramNode Stores.init [] = (Stores.init, Except.ok 7) ∧
    Executable.execute subOnlyNode Stores.init [] =
      (Stores.init, Except.error .ExpectedSubcommand) :=
  ⟨(C3_empty_stream Nat paramNode Stores.init).1 (fun _ => 7) rfl,
   (C3_empty_stream Nat subOnlyNode Stores.init).2 rfl⟩

/-- C4: a short-form parameter token that is the last token of the stream
fails with `ExpectedValue` for that token, and that failing token causes no
store mutation: the returned state is the prior state, so the parameter's
store still holds its prior value. -/
theorem C4_trailing_short_param (R : Type) (node : SubCommand R) (st : Stores)
    (s : Tok) (p : Parameter)
    (hnd : s.head? ≠ some '-')
    (hflag : node.flags.find? (fun flag => flag.short_name == s) = none)
    (hparam : node.params.find? (fun param => param.short_name == s) = some p) :
    Executable.execute node st [('-' :: s)] =
      (st, Except.error (.ExpectedValue ('-' :: s))) ∧
    ((Executable.execute node st [('-' :: s)]).1).paramValues p.value =
      st.paramValues p.value := by
  have h := execute_short_param_exhausted node st s p hnd hflag hparam
  exact ⟨h, by rw [h]⟩

/-- C4 witness: `["-p"]` against the single-parameter node fails with
`ExpectedValue "-p"` and leaves parameter cell 0 at its prior value. -/
theorem C4_trailing_short_param_witness :
    Executable.execute paramNode Stores.init ["-p".data] =
      (Stores.init, Except.error (.ExpectedValue "-p".data)) ∧
    ((Executable.execute paramNode Stores.init ["-p".data]).1).paramValues 0 =
      Stores.init.paramValues 0 :=
  C4_trailing_short_param Nat paramNode Stores.init "p".data pParam
    (by decide) rfl rfl

/-- C5: a long-form `name=value` token splits at the first `=` only, so the
bound value may itself contain `=`; in particular `--param=a=b` binds the
string `a=b` to the parameter with long name `param`. -/
theorem C5_split_first_equals :
    (∀ (R : Type) (node : SubCommand R) (st : Stores) (n v : Tok)
        (rest : List Tok) (p : Parameter),
        '=' ∉ n →
        node.params.find? (fun param => param.long_name == n) = some p →
        Executable.execute node st (('-' :: '-' :: (n ++ '=' :: v)) :: rest) =
          Executable.execute node (p.set_value v st) rest) ∧
    ((Executable.execute paramNode Stores.init ["--param=a=b".data]).1).paramValues 0 =
      some "a=b".data := by
  refine ⟨?_, rfl⟩
  intro R node st n v rest p hn hp
  exact execute_long_param_bind node st (n ++ '=' :: v) n v rest p
    (splitFirstEq_append n v hn) hp

/-- C5 witness: the token `--param=a=b` binds the value `a=b` (containing
`=`) to the parameter `param`. -/
theorem C5_split_first_equals_witness :
    Executable.execute paramNode Stores.init ["--param=a=b".data] =
      Executable.execute paramNode (pParam.set_value "a=b".data Stores.init) [] :=
  C5_split_first_equals.1 Nat paramNode Stores.init "param".data "a=b".data []
    pParam (by decide) rfl

/-- C6: for the node with the single declared parameter `p`/`param`:
before any bind its store's `value()` is empty; after a successful dispatch
with tokens `["-p", "x"]` or with tokens `["--param=x"]` its store's
`value()` equals the string `x`, stored verbatim. -/
theorem C6_parameter_bind_value :
    ParameterValue.value (Stores.init.paramValues 0) = none ∧
    (Executable.execute paramNode Stores.init ["-p".data, "x".data]).2 = Except.ok 7 ∧
    ParameterValue.value
        (((Executable.execute paramNode Stores.init ["-p".data, "x".data]).1).paramValues 0) =
      some "x".data ∧
    (Executable.execute paramNode Stores.init ["--param=x".data]).2 = Except.ok 7 ∧
    ParameterValue.value
        (((Executable.execute paramNode Stores.init ["--param=x".data]).1).paramValues 0) =
      some "x".data :=
  ⟨rfl, rfl, rfl, rfl, rfl⟩

/-- C7: every flag cell is created `false` and transitions one-way:
`value()` is a pure read, `mark()` sets it to `true` and is a no-op on the
state when the cell is already `true`, and no dispatch pass — in
particular, replaying a second pass over any tree from any reached state —
ever resets a flag cell to `false` or a parameter cell to unset. -/
theorem C7_flag_one_way :
    FlagValue.new = false ∧
    (∀ v : FlagValue, FlagValue.value v = v) ∧
    (∀ v : FlagValue, FlagValue.mark v = true) ∧
    (∀ (st : Stores) (f : Flag), st.flagValues f.flag = true → f.mark st = st) ∧
    (∀ (R : Type) (node : SubCommand R) (st : Stores) (args : List Tok) (i : Nat),
        st.flagValues i = true →
        ((Executable.execute node st args).1).flagValues i = true) ∧
    (∀ (R : Type) (node : SubCommand R) (st : Stores) (args : List Tok) (i : Nat),
        (st.paramValues i).isSome = true →
        (((Executable.execute node st args).1).paramValues i).isSome = true) := by
  refine ⟨rfl, fun _ => rfl, fun _ => rfl, ?_, ?_, ?_⟩
  · intro st f h
    have hfun : (fun i => if i = f.flag then FlagValue.mark (st.flagValues i)
        else st.flagValues i) = st.flagValues := by
      funext j
      by_cases hj : j = f.flag
      · subst hj
        simp [FlagValue.mark, h]
      · simp [hj]
    show { st with flagValues := fun i => if i = f.flag then
      FlagValue.mark (st.flagValues i) else st.flagValues i } = st
    rw [hfun]
  · exact fun R node st args i h => execute_flagValues_mono node st args i h
  · exact fun R node st args i h => execute_paramValues_isSome_mono node st args i h

/-- C7 witness: marking an already-marked cell leaves the state unchanged,
and a replayed dispatch pass preserves a marked flag cell and a bound
parameter cell. -/
theorem C7_flag_one_way_witness :
    fFlag.mark (fFlag.mark Stores.init) = fFlag.mark Stores.init ∧
    ((Executable.execute flagNode (fFlag.mark Stores.init) ["-f".data]).1).flagValues 0 =
      true ∧
    (((Executable.execute paramNode (pParam.set_value "x".data Stores.init)
        []).1).paramValues 0).isSome = true :=
  ⟨C7_flag_one_way.2.2.2.1 (fFlag.mark Stores.init) fFlag rfl,
   C7_flag_one_way.2.2.2.2.1 Nat flagNode (fFlag.mark Stores.init) ["-f".data] 0 rfl,
   C7_flag_one_way.2.2.2.2.2 Nat paramNode (pParam.set_value "x".data Stores.init) [] 0 rfl⟩

/-- C8: store mutations performed for tokens consumed before a failing
token are preserved in the final state (no rollback): a flag marked by an
earlier token is still marked in the state returned with the error. -/
theorem C8_no_rollback :
    (∀ (R : Type) (node : SubCommand R) (st : Stores) (s : Tok)
        (rest : List Tok) (f : Flag),
        s.head? ≠ some '-' →
        node.flags.find? (fun flag => flag.short_name == s) = some f →
        ((Executable.execute node st (('-' :: s) :: rest)).1).flagValues f.flag = true) ∧
    (Executable.execute flagNode Stores.init ["-f".data, "--bogus".data]).2 =
      Except.error (.UnknownArgument "--bogus".data) ∧
    ((Executable.execute flagNode Stores.init ["-f".data, "--bogus".data]).1).flagValues 0 =
      true := by
  refine ⟨?_, rfl, rfl⟩
  intro R node st s rest f hnd hfind
  rw [execute_short_flag_mark node st s rest f hnd hfind]
  exact execute_flagValues_mono node (f.mark st) rest f.flag (mark_flagValues_self f st)

/-- C8 witness: after the failing dispatch `["-f", "--bogus"]`, the flag
cell marked by the earlier `-f` token is still `true`. -/
theorem C8_no_rollback_witness :
    ((Executable.execute flagNode Stores.init
        (('-' :: "f".data) :: ["--bogus".data])).1).flagValues fFlag.flag = true :=
  C8_no_rollback.1 Nat flagNode Stores.init "f".data ["--bogus".data] fFlag
    (by decide) rfl

/-- C9: the token `--` is not an end-of-options terminator: it is processed
as a long-form flag lookup with the empty string as name, so it marks the
first declared flag whose long name is empty — such as one built with only
a short name — and fails as an unexpected flag (`UnknownArgument`) when no
such flag is declared. -/
theorem C9_double_dash_empty_flag :
    (∀ (R : Type) (node : SubCommand R) (st : Stores) (rest : List Tok) (f : Flag),
        node.flags.find? (fun flag => flag.long_name == ([] : Tok)) = some f →
        Executable.execute node st (['-', '-'] :: rest) =
          Executable.execute node (f.mark st) rest) ∧
    (∀ (R : Type) (node : SubCommand R) (st : Stores) (rest : List Tok),
        node.flags.find? (fun flag => flag.long_name == ([] : Tok)) = none →
        Executable.execute node st (['-', '-'] :: rest) =
          (st, Except.error (.UnknownArgument ['-', '-']))) ∧
    (∀ (s : Tok) (cell : Nat), s ≠ [] →
        ((Flag.build.with_short_name s).with_flag cell).build =
          some { short_name := s, long_name := [], description := [], flag := cell }) := by
  refine ⟨?_, ?_, ?_⟩
  · intro R node st rest f hf
    exact execute_long_flag_mark node st [] rest f rfl hf
  · intro R node st rest hf
    exact execute_long_flag_missing node st [] rest rfl hf
  · intro s cell hs
    simp [Flag.build, FlagBuilder.with_short_name, FlagBuilder.with_flag,
      FlagBuilder.build, hs]

/-- C9 witness: `--` marks the short-only flag (whose built long name is
empty) at the node declaring it, and fails with `UnknownArgument "--"` at
the node declaring only `f`/`flag`. -/
theorem C9_double_dash_empty_flag_witness :
    Executable.execute ddNode Stores.init ["--".data] =
      Executable.execute ddNode (shortOnlyFlag.mark Stores.init) [] ∧
    Executable.execute flagNode Stores.init ["--".data] =
      (Stores.init, Except.error (.UnknownArgument "--".data)) ∧
    ((Flag.build.with_short_name "q".data).with_flag 2).build = some shortOnlyFlag :=
  ⟨C9_double_dash_empty_flag.1 Nat ddNode Stores.init [] shortOnlyFlag rfl,
   C9_double_dash_empty_flag.2.1 Nat flagNode Stores.init [] rfl,
   C9_double_dash_empty_flag.2.2 "q".data 2 (by decide)⟩

/-- C10: a short-form token matching a declared parameter consumes the
immediately following token verbatim as its value regardless of its shape:
with tokens `["-p", "-f"]` the string `-f` is bound as the value of `p` and
is never interpreted as a flag, even though a flag `-f` is declared. -/
theorem C10_short_param_value_verbatim :
    (∀ (R : Type) (node : SubCommand R) (st : Stores) (s v : Tok)
        (rest : List Tok) (p : Parameter),
        s.head? ≠ some '-' →
        node.flags.find? (fun flag => flag.short_name == s) = none →
        node.params.find? (fun param => param.short_name == s) = some p →
        Executable.execute node st (('-' :: s) :: v :: rest) =
          Executable.execute node (p.set_value v st) rest) ∧
    (Executable.execute mixedNode Stores.init ["-p".data, "-f".data]).2 = Except.ok 3 ∧
    ((Executable.execute mixedNode Stores.init ["-p".data, "-f".data]).1).paramValues 0 =
      some "-f".data ∧
    ((Executable.execute mixedNode Stores.init ["-p".data, "-f".data]).1).flagValues 0 =
      false := by
  refine ⟨?_, rfl, rfl, rfl⟩
  intro R node st s v rest p hnd h1 h2
  exact execute_short_param_bind node st s v rest p hnd h1 h2

/-- C10 witness: at the node declaring both the flag `f` and the parameter
`p`, the token after `-p` — here the string `-f` — is consumed as the bound
value. -/
theorem C10_short_param_value_verbatim_witness :
    Executable.execute mixedNode Stores.init ["-p".data, "-f".data] =
      Executable.execute mixedNode (pParam.set_value "-f".data Stores.init) [] :=
  C10_short_param_value_verbatim.1 Nat mixedNode Stores.init "p".data "-f".data []
    pParam (by decide) rfl rfl

end Cliapp
